import Mathlib

/-!
Shallow embedding of the web3-resolver crate (Chums-Team/web3-resolver).

The crate resolves "Web3" domain names via two backends (the Evername
naming-system backend and the Unstoppable Domains registrar backend),
with a suffix-based dispatch and an optional TTL cache.

External collaborators (JRPC transport, ABI cell decoding, HTTP) are out
of the crate's core; they appear here as parameters or as an abstract
cell type carrying the value its decode collaborator would produce.
Strings are modelled by Lean `String`; Rust byte-indexed operations
(`str::get`) are modelled via UTF-8 byte sizes of the characters.
-/

deriving instance DecidableEq for Except

namespace Web3Resolver

/-- `AddressTag` from src/models.rs. -/
inductive AddressTag where
  | Tor
  | Ipfs
  | Web2
  | Onchain
  | OnchainContract
  | NonWeb3
  | UnstoppableDomain
deriving DecidableEq, Repr

namespace AddressTag

def TOR_ADDRESS_TAG : Nat := 1001
def IPFS_ADDRESS_TAG : Nat := 1002
def WEB2_ADDRESS_TAG : Nat := 1003
def ONCHAIN_ADDRESS_TAG : Nat := 1004
def ONCHAIN_CONTRACT_ADDRESS_TAG : Nat := 1005

/-- `AddressTag::tag` (src/models.rs lines 22-32): the u128 wire identifier. -/
def tag : AddressTag → Nat
  | .Tor => TOR_ADDRESS_TAG
  | .Ipfs => IPFS_ADDRESS_TAG
  | .Web2 => WEB2_ADDRESS_TAG
  | .Onchain => ONCHAIN_ADDRESS_TAG
  | .OnchainContract => ONCHAIN_CONTRACT_ADDRESS_TAG
  | .NonWeb3 => 0
  | .UnstoppableDomain => 0

/-- `AddressTag::resolvable` (src/models.rs lines 36-44).  Order is priority. -/
def resolvable : List AddressTag :=
  [.Tor, .Ipfs, .Web2, .Onchain, .OnchainContract]

end AddressTag

/-- Error values of the crate.  The Rust code uses `anyhow` string errors;
each constructor here corresponds to one distinct `anyhow!` message site. -/
inductive ResolveError where
  /-- "Unknown address tag" (TryFrom<u32> for AddressTag). -/
  | unknownTag
  /-- "No address for requested domain {domain}" (EvernameResolver::resolve). -/
  | noResolvableRecord (domain : String)
  /-- "malformed cell data" (string_cell_value / address_cell_value). -/
  | malformedCellData
  /-- "bad map value" (EvernameResolver::get_records). -/
  | badMapValue
  /-- "could not convert map key to uint32" (EvernameResolver::get_records). -/
  | keyNotU32
  /-- "Profile for domain {} does not contain IPFS hash or Web2Url" (ud.rs). -/
  | profileIncomplete (domain : String)
  /-- "Failed to resolve Unstoppable Domain: {e}" (Web3DomainResolver::resolve). -/
  | udFailed (e : ResolveError)
  /-- "Cache is on, but TTL is not set or invalid" (DomainResolverBuilder::build). -/
  | configurationError
  /-- Any failure originating in an external collaborator (transport, contract
  call, cell decode outside the modelled shapes). -/
  | external (msg : String)
deriving DecidableEq, Repr

/-- `TryFrom<u32> for AddressTag` (src/models.rs lines 47-60).  The Rust
match is on `value as u128`; the numeric value is modelled as `Nat`. -/
def AddressTag.tryFrom (value : Nat) : Except ResolveError AddressTag :=
  if value = AddressTag.TOR_ADDRESS_TAG then .ok .Tor
  else if value = AddressTag.IPFS_ADDRESS_TAG then .ok .Ipfs
  else if value = AddressTag.WEB2_ADDRESS_TAG then .ok .Web2
  else if value = AddressTag.ONCHAIN_ADDRESS_TAG then .ok .Onchain
  else if value = AddressTag.ONCHAIN_CONTRACT_ADDRESS_TAG then .ok .OnchainContract
  else .error .unknownTag

/-- `ResolvedDomainData` from src/models.rs.  The Rust `OnchainContractData`
variant carries a `(String, String)` pair `(content, content_type)`. -/
inductive ResolvedDomainData where
  | DomainString (s : String)
  | OnchainData (s : String)
  | OnchainContractData (content contentType : String)
deriving DecidableEq, Repr

/-! ### Rust string operations

Rust `str::get(0..n)` is byte-indexed and returns `None` when the string is
shorter than `n` bytes or byte `n` is not a character boundary.  We model a
Rust string as the Lean `String` (a list of unicode scalar values) and compute
byte positions from each character's UTF-8 size. -/

/-- Take the characters covering exactly `n` UTF-8 bytes; `none` when the
string has fewer than `n` bytes or byte `n` falls inside a character. -/
def takeBytes : List Char → Nat → Option (List Char)
  | _, 0 => some []
  | [], _ + 1 => none
  | c :: cs, n + 1 =>
    if c.utf8Size ≤ n + 1 then
      (takeBytes cs (n + 1 - c.utf8Size)).map (c :: ·)
    else none

/-- Rust `s.get(0..n)` for a `&str`. -/
def rustStrGet (s : String) (n : Nat) : Option String :=
  (takeBytes s.data n).map String.mk

/-- UTF-8 byte length of a string (Rust `str::len`). -/
def utf8Len (s : String) : Nat :=
  (s.data.map Char.utf8Size).sum

/-- Rust `str::ends_with` with a string pattern: byte-suffix comparison,
equivalent to scalar-value-suffix comparison for valid UTF-8. -/
def rustEndsWith (s pat : String) : Bool :=
  pat.data.isSuffixOf s.data

/-- One step list form of Rust `str::trim_start_matches`: strip `pat` from the
front as long as it matches.  Structural recursion on fuel; `s.length` fuel is
enough because each strip consumes at least one character. -/
def trimStartListAux (pat : List Char) : Nat → List Char → List Char
  | 0, s => s
  | fuel + 1, s =>
    if pat.isPrefixOf s && !pat.isEmpty then
      trimStartListAux pat fuel (s.drop pat.length)
    else s

/-- Rust `str::trim_start_matches` with a string pattern. -/
def trimStartMatches (s pat : String) : String :=
  String.mk (trimStartListAux pat.data s.data.length s.data)

/-- `make_ipfs_link` (src/resolver/ipfs.rs): strip `ipfs://` then `/ipfs/`
from the front and embed in the w3s.link gateway URL. -/
def make_ipfs_link (content_hash_string : String) : String :=
  let content_hash_fixed :=
    trimStartMatches (trimStartMatches content_hash_string "ipfs://") "/ipfs/"
  "https://" ++ content_hash_fixed ++ ".ipfs.w3s.link/"

/-! ### Display implementations (src/models.rs lines 62-92) -/

/-- `Display for AddressTag`. -/
def AddressTag.display : AddressTag → String
  | .Tor => "tor(" ++ toString AddressTag.TOR_ADDRESS_TAG ++ ")"
  | .Ipfs => "ipfs(" ++ toString AddressTag.IPFS_ADDRESS_TAG ++ ")"
  | .Web2 => "ip(" ++ toString AddressTag.WEB2_ADDRESS_TAG ++ ")"
  | .Onchain => "onchain(" ++ toString AddressTag.ONCHAIN_ADDRESS_TAG ++ ")"
  | .OnchainContract =>
      "onchain-contract(" ++ toString AddressTag.ONCHAIN_CONTRACT_ADDRESS_TAG ++ ")"
  | .NonWeb3 => "non-ever(plain)"
  | .UnstoppableDomain => "unstoppable-domain"

/-- `Display for ResolvedDomainData` (src/models.rs lines 83-92).  The
on-chain variants render `&s.get(0..10).unwrap_or_default()`: the first ten
bytes when defined, the empty string otherwise. -/
def ResolvedDomainData.display : ResolvedDomainData → String
  | .DomainString s => "DomainString(" ++ s ++ ")"
  | .OnchainData s => "OnchainData(" ++ (rustStrGet s 10).getD "" ++ "...)"
  | .OnchainContractData content contentType =>
      "OnchainContractData(" ++ (rustStrGet content 10).getD "" ++ "..., "
        ++ contentType ++ ")"

/-! ### Evername naming-system backend (src/resolver/evername.rs)

A contract `Cell` is opaque binary data; the ABI decode collaborator
(`unpack_from_cell`, external to the crate) turns it into a string or an
address or fails.  We model a cell by the decoded value it carries. -/

/-- An opaque ABI cell, modelled by the value the decode collaborator
produces for it: a string payload, an address payload, or data that decodes
as neither shape. -/
inductive Cell where
  | strCell (s : String)
  | addrCell (a : String)
  | rawCell
deriving DecidableEq, Repr

/-- `string_cell_value` (src/resolver/evername.rs lines 230-239): decode a
cell as a single string, failing with "malformed cell data" otherwise. -/
def string_cell_value : Cell → Except ResolveError String
  | .strCell s => .ok s
  | _ => .error .malformedCellData

/-- `address_cell_value` (src/resolver/evername.rs lines 241-250): decode a
cell as a contract address rendered to a string. -/
def address_cell_value : Cell → Except ResolveError String
  | .addrCell a => .ok a
  | _ => .error .malformedCellData

/-- A record map as held by `EvernameResolver::resolve`: the `HashMap` built
by `get_records`, keyed by recognized `AddressTag`. -/
abbrev RecordMap : Type := AddressTag → Option Cell

/-- `HashMap::insert`: later inserts overwrite earlier ones. -/
def RecordMap.insert (m : RecordMap) (t : AddressTag) (c : Cell) : RecordMap :=
  fun t' => if t' = t then some c else m t'

/-- The empty record map. -/
def RecordMap.empty : RecordMap := fun _ => none

/-- One raw entry of the `records` map returned by the Domain contract's
`getRecords`: a numeric key paired with either a cell value or a value of
some other token shape (the `_ => bad map value` arm). -/
inductive MapValue where
  | cell (c : Cell)
  | nonCell
deriving DecidableEq, Repr

/-- The loop body of `EvernameResolver::get_records` (src/resolver/evername.rs
lines 152-167): fold the raw `(u32, Cell)` entries into a `HashMap`, keeping
only keys that `AddressTag::try_from` recognizes.  A non-cell value aborts
with "bad map value"; a key that does not fit in a u32 aborts with the
conversion error.  Keys are modelled as `Nat` (the `BigUint` before
`to_u32`). -/
def get_records_fold : List (Nat × MapValue) → RecordMap → Except ResolveError RecordMap
  | [], m => .ok m
  | (key, .cell c) :: rest, m =>
    if key < 2 ^ 32 then
      match AddressTag.tryFrom key with
      | .ok tag => get_records_fold rest (m.insert tag c)
      | .error _ => get_records_fold rest m
    else .error .keyNotU32
  | (_, .nonCell) :: _, _ => .error .badMapValue

/-- `EvernameResolver::get_records` applied to a decoded `records` token map. -/
def get_records (entries : List (Nat × MapValue)) : Except ResolveError RecordMap :=
  get_records_fold entries RecordMap.empty

/-- The per-tag decoding of `EvernameResolver::resolve` (src/resolver/evername.rs
lines 67-87).  `loadContent` stands for `load_content_from_contract`, a
further contract call against the address decoded from the cell. -/
def decodeRecord (loadContent : String → Except ResolveError (String × String))
    (tag : AddressTag) (cell_value : Cell) :
    Except ResolveError (ResolvedDomainData × AddressTag) :=
  match tag with
  | .Onchain =>
    match string_cell_value cell_value with
    | .ok s => .ok (ResolvedDomainData.OnchainData s, .Onchain)
    | .error e => .error e
  | .OnchainContract =>
    match address_cell_value cell_value with
    | .ok contract_address =>
      match loadContent contract_address with
      | .ok (content, content_type) =>
        .ok (ResolvedDomainData.OnchainContractData content content_type, .OnchainContract)
      | .error e => .error e
    | .error e => .error e
  | .Ipfs =>
    match string_cell_value cell_value with
    | .ok s => .ok (ResolvedDomainData.DomainString (make_ipfs_link s), .Ipfs)
    | .error e => .error e
  | t =>
    match string_cell_value cell_value with
    | .ok s => .ok (ResolvedDomainData.DomainString s, t)
    | .error e => .error e

/-- The `for tag in AddressTag::resolvable()` loop of
`EvernameResolver::resolve` over a given priority list. -/
def resolveLoop (loadContent : String → Except ResolveError (String × String))
    (records : RecordMap) (domain : String) :
    List AddressTag → Except ResolveError (ResolvedDomainData × AddressTag)
  | [] => .error (.noResolvableRecord domain)
  | tag :: rest =>
    match records tag with
    | some cell_value => decodeRecord loadContent tag cell_value
    | none => resolveLoop loadContent records domain rest

/-- `EvernameResolver::resolve` after the records map has been obtained
(src/resolver/evername.rs lines 64-91). -/
def evernameResolveRecords (loadContent : String → Except ResolveError (String × String))
    (records : RecordMap) (domain : String) :
    Except ResolveError (ResolvedDomainData × AddressTag) :=
  resolveLoop loadContent records domain AddressTag.resolvable

/-- Full `EvernameResolver::resolve` (src/resolver/evername.rs lines 61-92):
root-contract lookup (`address_contract`), then `get_records`, then the
priority loop.  The two contract calls are collaborator parameters. -/
def EvernameResolver.resolve
    (address_contract : String → Except ResolveError String)
    (getRecordsOf : String → Except ResolveError (List (Nat × MapValue)))
    (loadContent : String → Except ResolveError (String × String))
    (domain : String) : Except ResolveError (ResolvedDomainData × AddressTag) :=
  match address_contract domain with
  | .error e => .error e
  | .ok resolved_address =>
    match getRecordsOf resolved_address with
    | .error e => .error e
    | .ok entries =>
      match get_records entries with
      | .error e => .error e
      | .ok records => evernameResolveRecords loadContent records domain

/-! ### Unstoppable Domains registrar backend (src/resolver/ud.rs) -/

/-- The two fields `UnstoppableDomainsResolver::resolve` reads from the
profile JSON: `records."ipfs.html.value"` and `profile.web2Url`, each absent
when missing or not a JSON string. -/
structure UdProfile where
  ipfsHtmlValue : Option String
  web2Url : Option String

/-- `UnstoppableDomainsResolver::resolve` (src/resolver/ud.rs lines 54-71)
given the fetched profile document. -/
def udResolve (profile : UdProfile) (domain : String) :
    Except ResolveError (ResolvedDomainData × AddressTag) :=
  let ipfs_url := profile.ipfsHtmlValue.map make_ipfs_link
  let web2_url := profile.web2Url
  match web2_url.or ipfs_url with
  | some result => .ok (ResolvedDomainData.DomainString result, AddressTag.UnstoppableDomain)
  | none => .error (.profileIncomplete domain)

/-! ### Orchestrator (src/resolver.rs) -/

/-- The in-memory cache: literal queried name to resolved pair.  `mini_moka`
expires entries by TTL; the map here holds the currently live (non-expired)
entries, which is what `Cache::get` can return. -/
abbrev CacheMap : Type := List (String × (ResolvedDomainData × AddressTag))

/-- `Cache::get`. -/
def cacheGet (c : CacheMap) (k : String) : Option (ResolvedDomainData × AddressTag) :=
  (List.find? (fun e => e.1 = k) c).map (·.2)

/-- `Cache::insert`: the new entry shadows any previous entry for the key. -/
def cacheInsert (c : CacheMap) (k : String) (v : ResolvedDomainData × AddressTag) :
    CacheMap :=
  (k, v) :: c

/-- `Web3DomainResolver` (src/resolver.rs lines 22-26).  The two backends are
modelled by their `resolve` functions and the registrar's current suffix
list (`UnstoppableDomainsResolver::get_tlds`). -/
structure Web3DomainResolver where
  evername_resolve : String → Except ResolveError (ResolvedDomainData × AddressTag)
  ud_tlds : List String
  ud_resolve : String → Except ResolveError (ResolvedDomainData × AddressTag)

/-- `Web3DomainResolver::resolve` (src/resolver.rs lines 54-80).  The cache is
threaded explicitly: the result pairs the Rust return value with the cache
after the call (`none` = resolver built with no cache). -/
def Web3DomainResolver.resolve (r : Web3DomainResolver) (dns_cache : Option CacheMap)
    (domain : String) :
    Except ResolveError ((ResolvedDomainData × AddressTag) × Option CacheMap) :=
  match dns_cache.bind (fun cache => cacheGet cache domain) with
  | some found => .ok (found, dns_cache)
  | none =>
    let delegated : Except ResolveError (ResolvedDomainData × AddressTag) :=
      if rustEndsWith domain ".ever" then
        r.evername_resolve domain
      else if r.ud_tlds.any (fun tld => rustEndsWith domain tld) then
        (r.ud_resolve domain).mapError ResolveError.udFailed
      else
        .ok (ResolvedDomainData.DomainString domain, AddressTag.NonWeb3)
    match delegated with
    | .error e => .error e
    | .ok (resolved_data, address_tag) =>
      let dns_cache' := dns_cache.map (fun cache =>
        -- do not cache onchain content
        if address_tag ≠ AddressTag.Onchain ∧ address_tag ≠ AddressTag.OnchainContract then
          cacheInsert cache domain (resolved_data, address_tag)
        else cache)
      .ok ((resolved_data, address_tag), dns_cache')

/-! ### Configuration builder (src/resolver/builder.rs) -/

/-- The builder's fields (src/resolver/builder.rs lines 7-12). -/
structure DomainResolverBuilder where
  eversacale_endpoint : String
  unstoppable_domain_base_url : String
  use_cache : Bool
  cache_ttl_seconds : Option Nat

/-- `Default for DomainResolverBuilder` (src/resolver/builder.rs lines 14-23). -/
def DomainResolverBuilder.default : DomainResolverBuilder :=
  { eversacale_endpoint := "https://jrpc.everwallet.net/rpc"
    unstoppable_domain_base_url := "https://api.unstoppabledomains.com"
    use_cache := true
    cache_ttl_seconds := some (5 * 60) }

/-- The cache-policy match of `DomainResolverBuilder::build`
(src/resolver/builder.rs lines 65-73): the TTL (in seconds) the cache is
built with, `none` for no cache, or the configuration error. -/
def buildCachePolicy (use_cache : Bool) (cache_ttl_seconds : Option Nat) :
    Except ResolveError (Option Nat) :=
  match use_cache, cache_ttl_seconds with
  | true, some ttl =>
    if ttl > 0 then .ok (some ttl) else .error .configurationError
  | true, none => .error .configurationError
  | false, _ => .ok none

/-- What a built cache looks like from the orchestrator's side: `none` when
the policy disabled it, an empty live map (with its TTL fixed) otherwise. -/
def builtCache : Option Nat → Option CacheMap
  | some _ => some []
  | none => none

/-- `DomainResolverBuilder::build` (src/resolver/builder.rs lines 62-75).
Backend construction performs network setup; their outcomes are the
`udBackend` and `everBackend` parameters, consumed in the Rust order (UD
first, Evername second, cache policy last). -/
def DomainResolverBuilder.build (b : DomainResolverBuilder)
    (udBackend : Except ResolveError
      ((String → Except ResolveError (ResolvedDomainData × AddressTag)) × List String))
    (everBackend : Except ResolveError
      (String → Except ResolveError (ResolvedDomainData × AddressTag))) :
    Except ResolveError (Web3DomainResolver × Option CacheMap) :=
  match udBackend with
  | .error e => .error e
  | .ok (ud_res, ud_tlds) =>
    match everBackend with
    | .error e => .error e
    | .ok ever_res =>
      match buildCachePolicy b.use_cache b.cache_ttl_seconds with
      | .error e => .error e
      | .ok dns_cache =>
        .ok ({ evername_resolve := ever_res, ud_tlds := ud_tlds, ud_resolve := ud_res },
          builtCache dns_cache)

/-! ## Helper lemmas -/

theorem trimStartListAux_not_matching (pat : List Char) (fuel : Nat) (s : List Char)
    (h : pat.isPrefixOf s = false) : trimStartListAux pat fuel s = s := by
  cases fuel <;> simp [trimStartListAux, h]

theorem trimStartMatches_not_matching (s pat : String)
    (h : pat.data.isPrefixOf s.data = false) : trimStartMatches s pat = s := by
  unfold trimStartMatches
  rw [trimStartListAux_not_matching _ _ _ h]

theorem takeBytes_isPrefix :
    ∀ (cs : List Char) (n : Nat) (ds : List Char),
      takeBytes cs n = some ds → ds <+: cs := by
  intro cs
  induction cs with
  | nil =>
    intro n ds h
    cases n with
    | zero => simp [takeBytes] at h; simp [h]
    | succ m => simp [takeBytes] at h
  | cons c cs ih =>
    intro n ds h
    cases n with
    | zero => simp [takeBytes] at h; simp [h]
    | succ m =>
      simp only [takeBytes] at h
      by_cases hle : c.utf8Size ≤ m + 1
      · rw [if_pos hle, Option.map_eq_some'] at h
        obtain ⟨ds', hds', rfl⟩ := h
        obtain ⟨t, rfl⟩ := ih _ _ hds'
        exact ⟨t, rfl⟩
      · rw [if_neg hle] at h
        cases h

theorem takeBytes_sum :
    ∀ (cs : List Char) (n : Nat) (ds : List Char),
      takeBytes cs n = some ds → (ds.map Char.utf8Size).sum = n := by
  intro cs
  induction cs with
  | nil =>
    intro n ds h
    cases n with
    | zero => simp [takeBytes] at h; simp [h]
    | succ m => simp [takeBytes] at h
  | cons c cs ih =>
    intro n ds h
    cases n with
    | zero => simp [takeBytes] at h; simp [h]
    | succ m =>
      simp only [takeBytes] at h
      by_cases hle : c.utf8Size ≤ m + 1
      · rw [if_pos hle, Option.map_eq_some'] at h
        obtain ⟨ds', hds', rfl⟩ := h
        have := ih _ _ hds'
        simp only [List.map_cons, List.sum_cons, this]
        omega
      · rw [if_neg hle] at h
        cases h

theorem utf8Len_le_of_isPrefix {p s : String} (h : p.data <+: s.data) :
    utf8Len p ≤ utf8Len s := by
  obtain ⟨t, ht⟩ := h
  unfold utf8Len
  rw [← ht]
  simp

/-! ## Claims -/

/-- C6: for every recognized wire identifier in {1001, 1002, 1003, 1004, 1005},
`AddressTag::try_from` succeeds and `tag` round-trips back to the identifier;
conversely `try_from (tag t) = t` for each of the five on-chain variants; and
`try_from` fails with the unknown-tag error on every other identifier. -/
theorem addressTag_wire_roundtrip :
    (∀ id ∈ ([1001, 1002, 1003, 1004, 1005] : List Nat),
      (AddressTag.tryFrom id).map AddressTag.tag = .ok id) ∧
    (∀ t ∈ AddressTag.resolvable, AddressTag.tryFrom t.tag = .ok t) ∧
    (∀ id : Nat, id ∉ ([1001, 1002, 1003, 1004, 1005] : List Nat) →
      AddressTag.tryFrom id = .error .unknownTag) := by
  refine ⟨by decide, by decide, ?_⟩
  intro id h
  simp only [List.mem_cons, List.not_mem_nil, or_false, not_or] at h
  obtain ⟨h1, h2, h3, h4, h5⟩ := h
  simp [AddressTag.tryFrom, AddressTag.TOR_ADDRESS_TAG, AddressTag.IPFS_ADDRESS_TAG,
    AddressTag.WEB2_ADDRESS_TAG, AddressTag.ONCHAIN_ADDRESS_TAG,
    AddressTag.ONCHAIN_CONTRACT_ADDRESS_TAG, h1, h2, h3, h4, h5]

theorem addressTag_wire_roundtrip_witness :
    (AddressTag.tryFrom 1004).map AddressTag.tag = .ok 1004 ∧
    AddressTag.tryFrom (AddressTag.tag .Ipfs) = .ok .Ipfs ∧
    AddressTag.tryFrom 1006 = .error .unknownTag :=
  ⟨addressTag_wire_roundtrip.1 1004 (by decide),
   addressTag_wire_roundtrip.2.1 .Ipfs (by decide),
   addressTag_wire_roundtrip.2.2 1006 (by decide)⟩

/-- C10: `AddressTag::tag` is total over all seven variants; both sentinels
`NonWeb3` and `UnstoppableDomain` return 0, which `try_from` rejects; hence
`tag` is not injective and the round-trip `try_from (tag t) = t` fails exactly
for the two sentinel variants. -/
theorem addressTag_sentinels_zero :
    AddressTag.NonWeb3.tag = 0 ∧
    AddressTag.UnstoppableDomain.tag = 0 ∧
    AddressTag.tryFrom 0 = .error .unknownTag ∧
    (∀ t : AddressTag, (AddressTag.tryFrom t.tag = .ok t ↔
      (t ≠ .NonWeb3 ∧ t ≠ .UnstoppableDomain))) ∧
    ¬ Function.Injective AddressTag.tag := by
  refine ⟨rfl, rfl, by decide, ?_, ?_⟩
  · intro t
    cases t <;> decide
  · intro hinj
    exact absurd (@hinj AddressTag.NonWeb3 AddressTag.UnstoppableDomain rfl) (by decide)

theorem addressTag_sentinels_zero_witness :
    AddressTag.tryFrom (AddressTag.tag .Tor) = .ok .Tor ∧
    AddressTag.tag .NonWeb3 = 0 :=
  ⟨(addressTag_sentinels_zero.2.2.2.1 .Tor).mpr (by decide),
   addressTag_sentinels_zero.1⟩

/-- C8: `make_ipfs_link` strips a leading `ipfs://` or `/ipfs/` prefix and
embeds the remainder in `https://<id>.ipfs.w3s.link/`; the inputs
`ipfs://bafybeiabc` and `/ipfs/bafybeiabc` produce the identical URL, and a
bare identifier with neither prefix is embedded unchanged. -/
theorem make_ipfs_link_gateway :
    make_ipfs_link "ipfs://bafybeiabc" = "https://bafybeiabc.ipfs.w3s.link/" ∧
    make_ipfs_link "/ipfs/bafybeiabc" = "https://bafybeiabc.ipfs.w3s.link/" ∧
    ∀ s : String, "ipfs://".data.isPrefixOf s.data = false →
      "/ipfs/".data.isPrefixOf s.data = false →
      make_ipfs_link s = "https://" ++ s ++ ".ipfs.w3s.link/" := by
  refine ⟨by decide, by decide, ?_⟩
  intro s h1 h2
  unfold make_ipfs_link
  rw [trimStartMatches_not_matching _ _ h1, trimStartMatches_not_matching _ _ h2]

theorem make_ipfs_link_gateway_witness :
    make_ipfs_link "bafybeiabc" = "https://bafybeiabc.ipfs.w3s.link/" :=
  (make_ipfs_link_gateway.2.2 "bafybeiabc" (by decide) (by decide)).trans (by decide)

/-- C9 counterexample: for the three-character string "abc", the Display
rendering of `OnchainData` shows an empty prefix, not "abc" as the claim's
"all of s when s is shorter than 10 characters" requires: Rust
`s.get(0..10)` is `None` for a string of fewer than 10 bytes and
`unwrap_or_default` turns that into the empty string. -/
theorem display_short_counterexample :
    ResolvedDomainData.display (.OnchainData "abc") = "OnchainData(...)" ∧
    ResolvedDomainData.display (.OnchainData "abc") ≠ "OnchainData(abc...)" :=
  ⟨by decide, by decide⟩

/-- C9 (amended): the Display rendering of `OnchainData(s)` and of the
content component of `OnchainContractData` shows the first 10 bytes of `s`
when `s` is at least 10 bytes long and byte 10 falls on a character boundary,
and the empty string otherwise; the shown prefix is never the full content of
a string longer than 10 bytes. -/
theorem display_truncates (s ct : String) :
    ∃ p : String,
      ResolvedDomainData.display (.OnchainData s) = "OnchainData(" ++ p ++ "...)" ∧
      ResolvedDomainData.display (.OnchainContractData s ct) =
        "OnchainContractData(" ++ p ++ "..., " ++ ct ++ ")" ∧
      p.data <+: s.data ∧
      utf8Len p ≤ 10 ∧
      (utf8Len s < 10 → p = "") ∧
      (rustStrGet s 10 = some p ∨ (rustStrGet s 10 = none ∧ p = "")) ∧
      (10 < utf8Len s → p ≠ s) := by
  cases h : rustStrGet s 10 with
  | none =>
    refine ⟨"", ?_, ?_, ?_, ?_, ?_, ?_, ?_⟩
    · simp [ResolvedDomainData.display, h]
    · simp [ResolvedDomainData.display, h]
    · exact List.nil_prefix
    · decide
    · intro _; rfl
    · exact Or.inr ⟨rfl, rfl⟩
    · intro hs hcontra
      rw [← hcontra] at hs
      simp [utf8Len] at hs
  | some p =>
    obtain ⟨ds, hds, hp⟩ := Option.map_eq_some'.mp h
    have hdata : p.data = ds := by rw [← hp]
    have hpre : p.data <+: s.data := hdata ▸ takeBytes_isPrefix _ _ _ hds
    have hlen : utf8Len p = 10 := by
      unfold utf8Len
      rw [hdata]
      exact takeBytes_sum _ _ _ hds
    refine ⟨p, ?_, ?_, hpre, ?_, ?_, Or.inl rfl, ?_⟩
    · simp [ResolvedDomainData.display, h]
    · simp [ResolvedDomainData.display, h]
    · omega
    · intro hs
      have := utf8Len_le_of_isPrefix hpre
      omega
    · intro hs hcontra
      rw [hcontra] at hlen
      omega

theorem display_truncates_witness :
    ResolvedDomainData.display (.OnchainData "abcdefghijklmn") =
      "OnchainData(abcdefghij...)" := by
  obtain ⟨p, h1, -, -, -, -, hp, -⟩ := display_truncates "abcdefghijklmn" "text/html"
  rcases hp with hp | ⟨hp, -⟩
  · have h10 : rustStrGet "abcdefghijklmn" 10 = some "abcdefghij" := by decide
    rw [h10] at hp
    have : p = "abcdefghij" := (Option.some_inj.mp hp).symm
    rw [this] at h1
    exact h1.trans (by decide)
  · have h10 : rustStrGet "abcdefghijklmn" 10 = some "abcdefghij" := by decide
    rw [h10] at hp
    cases hp

theorem resolveLoop_skip (lc : String → Except ResolveError (String × String))
    (records : RecordMap) (domain : String) (pre rest : List AddressTag)
    (h : ∀ t ∈ pre, records t = none) :
    resolveLoop lc records domain (pre ++ rest) = resolveLoop lc records domain rest := by
  induction pre with
  | nil => rfl
  | cons t ts ih =>
    have ht : records t = none := h t (by simp)
    rw [List.cons_append]
    simp only [resolveLoop, ht]
    exact ih (fun x hx => h x (by simp [hx]))

theorem decodeRecord_tag (lc : String → Except ResolveError (String × String))
    (tag : AddressTag) (c : Cell) (res : ResolvedDomainData × AddressTag)
    (h : decodeRecord lc tag c = .ok res) : res.2 = tag := by
  cases tag <;> cases c <;>
    simp only [decodeRecord, string_cell_value, address_cell_value] at h <;>
    (try split at h) <;>
    simp_all <;> simp [← h]

/-- C2: over any record map holding at least one recognized tag,
`EvernameResolver::resolve` selects exactly the earliest present tag of the
priority sequence Tor, Ipfs, Web2, Onchain, OnchainContract and returns that
tag paired with the data decoded from that tag's cell; no later-priority
record influences the result (the result depends only on the selected tag's
cell and the secondary contract call). -/
theorem evername_priority_selection
    (lc : String → Except ResolveError (String × String)) (records : RecordMap)
    (domain : String) (tag : AddressTag) (cell : Cell) (pre post : List AddressTag)
    (hsplit : AddressTag.resolvable = pre ++ tag :: post)
    (hpresent : records tag = some cell)
    (hearlier : ∀ t ∈ pre, records t = none) :
    evernameResolveRecords lc records domain = decodeRecord lc tag cell ∧
    ∀ res, decodeRecord lc tag cell = .ok res → res.2 = tag := by
  constructor
  · unfold evernameResolveRecords
    rw [hsplit, resolveLoop_skip lc records domain pre _ hearlier]
    simp [resolveLoop, hpresent]
  · intro res h
    exact decodeRecord_tag lc tag cell res h

theorem evername_priority_selection_witness :
    evernameResolveRecords (fun _ => Except.error (.external "no call"))
      (fun t => if t = AddressTag.Web2 then some (Cell.strCell "203.0.113.7")
        else if t = AddressTag.Onchain then some (Cell.strCell "page body") else none)
      "site.ever"
      = .ok (ResolvedDomainData.DomainString "203.0.113.7", AddressTag.Web2) := by
  have h := evername_priority_selection (fun _ => Except.error (.external "no call"))
    (fun t => if t = AddressTag.Web2 then some (Cell.strCell "203.0.113.7")
      else if t = AddressTag.Onchain then some (Cell.strCell "page body") else none)
    "site.ever" AddressTag.Web2 (Cell.strCell "203.0.113.7")
    [AddressTag.Tor, AddressTag.Ipfs] [AddressTag.Onchain, AddressTag.OnchainContract]
    (by decide) (by decide) (by decide)
  exact h.1.trans (by decide)

/-- The §3 invariant relating a result's `ResolvedDomainData` shape to its
paired `AddressTag`: Tor/Web2/Ipfs/NonWeb3/UnstoppableDomain carry
`DomainString`, Onchain carries `OnchainData`, OnchainContract carries
`OnchainContractData`. -/
def shapeOk : ResolvedDomainData × AddressTag → Bool
  | (ResolvedDomainData.DomainString _, .Tor) => true
  | (ResolvedDomainData.DomainString _, .Ipfs) => true
  | (ResolvedDomainData.DomainString _, .Web2) => true
  | (ResolvedDomainData.DomainString _, .NonWeb3) => true
  | (ResolvedDomainData.DomainString _, .UnstoppableDomain) => true
  | (ResolvedDomainData.OnchainData _, .Onchain) => true
  | (ResolvedDomainData.OnchainContractData _ _, .OnchainContract) => true
  | _ => false

theorem decodeRecord_shape (lc : String → Except ResolveError (String × String))
    (tag : AddressTag) (c : Cell) (res : ResolvedDomainData × AddressTag)
    (h : decodeRecord lc tag c = .ok res) : shapeOk res = true := by
  cases tag <;> cases c <;>
    simp only [decodeRecord, string_cell_value, address_cell_value] at h <;>
    (try split at h) <;>
    simp_all <;> simp [← h, shapeOk]

theorem resolveLoop_shape (lc : String → Except ResolveError (String × String))
    (records : RecordMap) (domain : String) :
    ∀ (tags : List AddressTag) (res : ResolvedDomainData × AddressTag),
      resolveLoop lc records domain tags = .ok res → shapeOk res = true := by
  intro tags
  induction tags with
  | nil => intro res h; simp [resolveLoop] at h
  | cons t ts ih =>
    intro res h
    simp only [resolveLoop] at h
    cases hr : records t with
    | some c =>
      rw [hr] at h
      exact decodeRecord_shape lc t c res h
    | none =>
      rw [hr] at h
      exact ih res h

/-- C4: for every value produced by any of the three resolution paths
(naming-system backend, registrar backend, NonWeb3 fallback), the
`ResolvedDomainData` shape is fully determined by the paired `AddressTag`:
Tor, Web2, Ipfs, NonWeb3 and UnstoppableDomain pair with `DomainString`,
Onchain with `OnchainData`, OnchainContract with `OnchainContractData`. -/
theorem resolved_shape_by_tag :
    (∀ (address_contract : String → Except ResolveError String)
       (getRecordsOf : String → Except ResolveError (List (Nat × MapValue)))
       (lc : String → Except ResolveError (String × String))
       (domain : String) (res : ResolvedDomainData × AddressTag),
      EvernameResolver.resolve address_contract getRecordsOf lc domain = .ok res →
        shapeOk res = true) ∧
    (∀ (profile : UdProfile) (domain : String) (res : ResolvedDomainData × AddressTag),
      udResolve profile domain = .ok res → shapeOk res = true) ∧
    (∀ domain : String,
      shapeOk (ResolvedDomainData.DomainString domain, AddressTag.NonWeb3) = true) := by
  refine ⟨?_, ?_, fun _ => rfl⟩
  · intro ac gr lc domain res h
    unfold EvernameResolver.resolve at h
    cases hac : ac domain with
    | error e => simp [hac] at h
    | ok addr =>
      simp only [hac] at h
      cases hgr : gr addr with
      | error e => simp [hgr] at h
      | ok entries =>
        simp only [hgr] at h
        cases hrec : get_records entries with
        | error e => simp [hrec] at h
        | ok records =>
          simp only [hrec] at h
          exact resolveLoop_shape lc records domain AddressTag.resolvable res h
  · intro profile domain res h
    simp only [udResolve] at h
    cases ho : profile.web2Url.or (profile.ipfsHtmlValue.map make_ipfs_link) with
    | some result => simp only [ho] at h; cases h; rfl
    | none => simp [ho] at h

theorem resolved_shape_by_tag_witness :
    shapeOk (ResolvedDomainData.OnchainData "raw page content", AddressTag.Onchain) = true :=
  resolved_shape_by_tag.1 (fun _ => .ok "0:abc") (fun _ => .ok [(1004, .cell (.strCell "raw page content"))])
    (fun _ => Except.error (.external "no call")) "site.ever"
    (ResolvedDomainData.OnchainData "raw page content", AddressTag.Onchain) (by decide)

/-- C1: `Web3DomainResolver::resolve` evaluates the dispatch rule in exact
order: a live cache entry for the literal name is returned with no backend
call; else a name ending in `.ever` is delegated to the Evername backend
regardless of registrar suffix overlap; else a name ending in a suffix of
the registrar's current list is delegated to the Unstoppable Domains
backend; else the name is returned verbatim as `DomainString` tagged
`NonWeb3` and the call succeeds. -/
theorem resolve_dispatch_order (r : Web3DomainResolver) (dns_cache : Option CacheMap)
    (domain : String) :
    (∀ cache found, dns_cache = some cache → cacheGet cache domain = some found →
      r.resolve dns_cache domain = .ok (found, dns_cache)) ∧
    (dns_cache.bind (fun cache => cacheGet cache domain) = none →
      ((rustEndsWith domain ".ever" = true →
        (r.resolve dns_cache domain).map Prod.fst = r.evername_resolve domain) ∧
       (rustEndsWith domain ".ever" = false →
        r.ud_tlds.any (fun tld => rustEndsWith domain tld) = true →
        (r.resolve dns_cache domain).map Prod.fst =
          (r.ud_resolve domain).mapError ResolveError.udFailed) ∧
       (rustEndsWith domain ".ever" = false →
        r.ud_tlds.any (fun tld => rustEndsWith domain tld) = false →
        r.resolve dns_cache domain =
          .ok ((ResolvedDomainData.DomainString domain, AddressTag.NonWeb3),
            dns_cache.map (fun cache => cacheInsert cache domain
              (ResolvedDomainData.DomainString domain, AddressTag.NonWeb3)))))) := by
  refine ⟨?_, ?_⟩
  · intro cache found h1 h2
    subst h1
    simp [Web3DomainResolver.resolve, h2]
  · intro hmiss
    refine ⟨?_, ?_, ?_⟩
    · intro hev
      cases he : r.evername_resolve domain with
      | error e =>
        simp [Web3DomainResolver.resolve, hmiss, hev, he, Except.map]
      | ok v =>
        obtain ⟨d, t⟩ := v
        simp [Web3DomainResolver.resolve, hmiss, hev, he, Except.map]
    · intro hev hud
      cases hu : r.ud_resolve domain with
      | error e =>
        simp [Web3DomainResolver.resolve, hmiss, hev, hud, hu, Except.map, Except.mapError]
      | ok v =>
        obtain ⟨d, t⟩ := v
        simp [Web3DomainResolver.resolve, hmiss, hev, hud, hu, Except.map, Except.mapError]
    · intro hev hud
      simp [Web3DomainResolver.resolve, hmiss, hev, hud]

theorem resolve_dispatch_order_witness :
    ({ evername_resolve := fun _ => Except.ok (ResolvedDomainData.OnchainData "X", AddressTag.Onchain),
       ud_tlds := [".crypto"],
       ud_resolve := fun _ => Except.error (.external "down") } : Web3DomainResolver).resolve
      (some [("cached.ever", (ResolvedDomainData.DomainString "10.0.0.1", AddressTag.Web2))])
      "cached.ever" =
      .ok ((ResolvedDomainData.DomainString "10.0.0.1", AddressTag.Web2),
        some [("cached.ever", (ResolvedDomainData.DomainString "10.0.0.1", AddressTag.Web2))]) ∧
    (({ evername_resolve := fun _ => Except.ok (ResolvedDomainData.OnchainData "X", AddressTag.Onchain),
        ud_tlds := [".crypto"],
        ud_resolve := fun _ => Except.error (.external "down") } : Web3DomainResolver).resolve
      none "plain.example").map Prod.fst =
      .ok (ResolvedDomainData.DomainString "plain.example", AddressTag.NonWeb3) := by
  constructor
  · exact (resolve_dispatch_order _ _ _).1
      [("cached.ever", (ResolvedDomainData.DomainString "10.0.0.1", AddressTag.Web2))]
      (ResolvedDomainData.DomainString "10.0.0.1", AddressTag.Web2) rfl (by decide)
  · have h := ((resolve_dispatch_order
      { evername_resolve := fun _ => Except.ok (ResolvedDomainData.OnchainData "X", AddressTag.Onchain),
        ud_tlds := [".crypto"],
        ud_resolve := fun _ => Except.error (.external "down") }
      none "plain.example").2 rfl).2.2 (by decide) (by decide)
    rw [h]
    rfl

/-- A cache entry whose tag is neither `Onchain` nor `OnchainContract` — the
only kind the `// do not cache onchain content` rule ever inserts. -/
def cacheEntryOk (e : String × (ResolvedDomainData × AddressTag)) : Prop :=
  e.2.2 ≠ AddressTag.Onchain ∧ e.2.2 ≠ AddressTag.OnchainContract

/-- C3: on every successful `Web3DomainResolver::resolve` call with the cache
enabled, a returned tag of `Onchain` or `OnchainContract` leaves the cache
unchanged (so an identical repeat query resolves afresh); any other returned
tag ends up stored under the literal queried name (freshly inserted on a
cache miss); consequently a cache whose entries all avoid the two on-chain
tags still avoids them after the call — no cache entry ever carries
`Onchain` or `OnchainContract`. -/
theorem cache_update_rule (r : Web3DomainResolver) (cache : CacheMap)
    (domain : String) (res : ResolvedDomainData × AddressTag) (cache' : CacheMap)
    (h : r.resolve (some cache) domain = .ok (res, some cache')) :
    ((res.2 = AddressTag.Onchain ∨ res.2 = AddressTag.OnchainContract) → cache' = cache) ∧
    (res.2 ≠ AddressTag.Onchain → res.2 ≠ AddressTag.OnchainContract →
      cacheGet cache' domain = some res ∧
      (cacheGet cache domain = none → cache' = cacheInsert cache domain res)) ∧
    ((∀ e ∈ cache, cacheEntryOk e) → ∀ e ∈ cache', cacheEntryOk e) := by
  unfold Web3DomainResolver.resolve at h
  cases hg : cacheGet cache domain with
  | some found =>
    simp only [Option.some_bind, hg] at h
    rw [Except.ok.injEq, Prod.mk.injEq, Option.some.injEq] at h
    obtain ⟨rfl, rfl⟩ := h
    exact ⟨fun _ => rfl, fun _ _ => ⟨hg, fun hn => by cases hn⟩, fun hok => hok⟩
  | none =>
    simp only [Option.some_bind, hg] at h
    split at h
    · cases h
    · rename_i resolved_data address_tag heq
      simp only [Option.map_some'] at h
      rw [Except.ok.injEq, Prod.mk.injEq, Option.some.injEq] at h
      obtain ⟨rfl, rfl⟩ := h
      by_cases hcond : address_tag ≠ AddressTag.Onchain ∧ address_tag ≠ AddressTag.OnchainContract
      · rw [if_pos hcond]
        refine ⟨?_, fun _ _ => ⟨?_, fun _ => rfl⟩, ?_⟩
        · rintro (hor | hor)
          · exact absurd hor hcond.1
          · exact absurd hor hcond.2
        · simp [cacheGet, cacheInsert, List.find?]
        · intro hok e he
          rcases List.mem_cons.mp he with rfl | he'
          · exact hcond
          · exact hok e he'
      · rw [if_neg hcond]
        refine ⟨fun _ => rfl, ?_, fun hok => hok⟩
        intro h1 h2
        exact absurd ⟨h1, h2⟩ hcond

theorem cache_update_rule_witness :
    cacheGet (cacheInsert ([] : CacheMap) "plain.host"
        (ResolvedDomainData.DomainString "plain.host", AddressTag.NonWeb3)) "plain.host" =
      some (ResolvedDomainData.DomainString "plain.host", AddressTag.NonWeb3) := by
  have h := cache_update_rule
    { evername_resolve := fun _ => Except.error (.external "down"),
      ud_tlds := [], ud_resolve := fun _ => Except.error (.external "down") }
    [] "plain.host" (ResolvedDomainData.DomainString "plain.host", AddressTag.NonWeb3)
    (cacheInsert [] "plain.host"
      (ResolvedDomainData.DomainString "plain.host", AddressTag.NonWeb3))
    (by decide)
  exact (h.2.1 (by decide) (by decide)).1

/-- C5: with `use_cache = true` and the TTL unset or zero,
`DomainResolverBuilder::build` returns the configuration error instead of a
resolver; with a positive TTL it builds a cache with exactly that TTL; with
`use_cache = false` it builds with no cache.  The configuration error is a
build-time error only: `Web3DomainResolver::resolve` can surface it only if
a backend itself returned it (which the real backends never construct). -/
theorem builder_ttl_validation (b : DomainResolverBuilder)
    (udBackend : Except ResolveError
      ((String → Except ResolveError (ResolvedDomainData × AddressTag)) × List String))
    (everBackend : Except ResolveError
      (String → Except ResolveError (ResolvedDomainData × AddressTag))) :
    (∀ udv everv, udBackend = .ok udv → everBackend = .ok everv →
      ((b.use_cache = true →
        (b.cache_ttl_seconds = none ∨ b.cache_ttl_seconds = some 0) →
        b.build udBackend everBackend = .error .configurationError) ∧
       (∀ ttl : Nat, b.use_cache = true → b.cache_ttl_seconds = some ttl → 0 < ttl →
        buildCachePolicy b.use_cache b.cache_ttl_seconds = .ok (some ttl) ∧
        b.build udBackend everBackend =
          .ok ({ evername_resolve := everv, ud_tlds := udv.2, ud_resolve := udv.1 },
            some [])) ∧
       (b.use_cache = false →
        b.build udBackend everBackend =
          .ok ({ evername_resolve := everv, ud_tlds := udv.2, ud_resolve := udv.1 },
            none)))) ∧
    (∀ (r : Web3DomainResolver) (dns_cache : Option CacheMap) (domain : String),
      Web3DomainResolver.resolve r dns_cache domain = .error .configurationError →
      r.evername_resolve domain = .error .configurationError) := by
  constructor
  · intro udv everv hu he
    obtain ⟨ud_res, ud_tlds⟩ := udv
    subst hu
    subst he
    refine ⟨?_, ?_, ?_⟩
    · intro hc httl
      rcases httl with httl | httl <;>
        simp [DomainResolverBuilder.build, buildCachePolicy, hc, httl]
    · intro ttl hc hs hpos
      constructor
      · simp [buildCachePolicy, hc, hs, hpos]
      · simp [DomainResolverBuilder.build, buildCachePolicy, builtCache, hc, hs, hpos]
    · intro hc
      simp [DomainResolverBuilder.build, buildCachePolicy, builtCache, hc]
  · intro r dns_cache domain h
    unfold Web3DomainResolver.resolve at h
    cases hg : dns_cache.bind (fun cache => cacheGet cache domain) with
    | some found => simp [hg] at h
    | none =>
      simp only [hg] at h
      split at h
      · rename_i e heq
        rw [Except.error.injEq] at h
        subst h
        split at heq
        · exact heq
        · split at heq
          · cases hu : r.ud_resolve domain with
            | ok v => rw [hu] at heq; simp [Except.mapError] at heq
            | error e' =>
              rw [hu] at heq
              simp only [Except.mapError] at heq
              rw [Except.error.injEq] at heq
              cases heq
          · cases heq
      · rename_i resolved_data address_tag heq
        cases h

theorem builder_ttl_validation_witness :
    DomainResolverBuilder.build
      { eversacale_endpoint := "https://jrpc.everwallet.net/rpc",
        unstoppable_domain_base_url := "https://api.unstoppabledomains.com",
        use_cache := true, cache_ttl_seconds := none }
      (.ok (fun _ => Except.error (.external "down"), [".crypto"]))
      (.ok (fun _ => Except.error (.external "down"))) = .error .configurationError :=
  ((builder_ttl_validation _ _ _).1
    (fun _ => Except.error (.external "down"), [".crypto"])
    (fun _ => Except.error (.external "down")) rfl rfl).1 rfl (Or.inl rfl)

theorem tryFrom_mem_resolvable (k : Nat) (t : AddressTag)
    (h : AddressTag.tryFrom k = .ok t) : t ∈ AddressTag.resolvable := by
  unfold AddressTag.tryFrom at h
  split_ifs at h <;> cases h <;> decide

theorem resolveLoop_all_none (lc : String → Except ResolveError (String × String))
    (records : RecordMap) (domain : String) (tags : List AddressTag)
    (h : ∀ t ∈ tags, records t = none) :
    resolveLoop lc records domain tags = .error (.noResolvableRecord domain) := by
  induction tags with
  | nil => rfl
  | cons t ts ih =>
    simp only [resolveLoop, h t (by simp)]
    exact ih (fun x hx => h x (by simp [hx]))

theorem decodeRecord_ne_noResolvable (lc : String → Except ResolveError (String × String))
    (tag : AddressTag) (c : Cell) (domain : String)
    (hlc : ∀ a e, lc a = .error e → e ≠ ResolveError.noResolvableRecord domain) :
    decodeRecord lc tag c ≠ .error (.noResolvableRecord domain) := by
  intro hcontra
  cases tag with
  | OnchainContract =>
    cases c with
    | addrCell a =>
      simp only [decodeRecord, address_cell_value] at hcontra
      cases hl : lc a with
      | ok v =>
        rw [hl] at hcontra
        obtain ⟨content, ct⟩ := v
        simp at hcontra
      | error e =>
        rw [hl] at hcontra
        simp at hcontra
        exact hlc a e hl hcontra
    | strCell s => simp [decodeRecord, address_cell_value] at hcontra
    | rawCell => simp [decodeRecord, address_cell_value] at hcontra
  | Onchain => cases c <;> simp [decodeRecord, string_cell_value] at hcontra
  | Ipfs => cases c <;> simp [decodeRecord, string_cell_value] at hcontra
  | Tor => cases c <;> simp [decodeRecord, string_cell_value] at hcontra
  | Web2 => cases c <;> simp [decodeRecord, string_cell_value] at hcontra
  | NonWeb3 => cases c <;> simp [decodeRecord, string_cell_value] at hcontra
  | UnstoppableDomain => cases c <;> simp [decodeRecord, string_cell_value] at hcontra

theorem resolveLoop_ne_noResolvable (lc : String → Except ResolveError (String × String))
    (records : RecordMap) (domain : String)
    (hlc : ∀ a e, lc a = .error e → e ≠ ResolveError.noResolvableRecord domain) :
    ∀ tags : List AddressTag, (∃ t ∈ tags, (records t).isSome = true) →
      resolveLoop lc records domain tags ≠ .error (.noResolvableRecord domain) := by
  intro tags
  induction tags with
  | nil => rintro ⟨t, ht, -⟩; cases ht
  | cons t ts ih =>
    rintro ⟨x, hx, hxs⟩
    simp only [resolveLoop]
    cases hr : records t with
    | some c => exact decodeRecord_ne_noResolvable lc t c domain hlc
    | none =>
      rcases List.mem_cons.mp hx with rfl | hx'
      · rw [hr] at hxs; cases hxs
      · exact ih ⟨x, hx', hxs⟩

theorem get_records_fold_characterization :
    ∀ (entries : List (Nat × MapValue)) (m0 : RecordMap),
      (∀ e ∈ entries, (∃ c, e.2 = MapValue.cell c) ∧ e.1 < 2 ^ 32) →
      ∃ m : RecordMap, get_records_fold entries m0 = .ok m ∧
        ∀ t : AddressTag, m t = none ↔
          (m0 t = none ∧ ∀ e ∈ entries, AddressTag.tryFrom e.1 ≠ .ok t) := by
  intro entries
  induction entries with
  | nil =>
    intro m0 _
    exact ⟨m0, rfl, by simp⟩
  | cons e rest ih =>
    intro m0 hwf
    obtain ⟨⟨c, hc⟩, hlt⟩ := hwf e (by simp)
    obtain ⟨k, v⟩ := e
    simp only at hc
    subst hc
    simp only at hlt
    simp only [get_records_fold]
    rw [if_pos hlt]
    cases htf : AddressTag.tryFrom k with
    | ok tag =>
      obtain ⟨m, hm, hchar⟩ := ih (m0.insert tag c) (fun x hx => hwf x (by simp [hx]))
      refine ⟨m, hm, ?_⟩
      intro t
      rw [hchar t]
      constructor
      · rintro ⟨hins, hrest⟩
        unfold RecordMap.insert at hins
        by_cases hteq : t = tag
        · rw [if_pos hteq] at hins; cases hins
        · rw [if_neg hteq] at hins
          refine ⟨hins, ?_⟩
          intro x hx
          rcases List.mem_cons.mp hx with rfl | hx'
          · rw [htf]
            intro hcontra
            injection hcontra with h2
            exact hteq h2.symm
          · exact hrest x hx'
      · rintro ⟨hm0, hall⟩
        have hne : t ≠ tag := by
          intro heq
          subst heq
          exact hall (k, .cell c) (by simp) (by rw [htf])
        refine ⟨?_, fun x hx => hall x (by simp [hx])⟩
        unfold RecordMap.insert
        rw [if_neg hne]
        exact hm0
    | error err =>
      obtain ⟨m, hm, hchar⟩ := ih m0 (fun x hx => hwf x (by simp [hx]))
      refine ⟨m, hm, ?_⟩
      intro t
      rw [hchar t]
      constructor
      · rintro ⟨hm0, hrest⟩
        refine ⟨hm0, ?_⟩
        intro x hx
        rcases List.mem_cons.mp hx with rfl | hx'
        · rw [htf]; simp
        · exact hrest x hx'
      · rintro ⟨hm0, hall⟩
        exact ⟨hm0, fun x hx => hall x (by simp [hx])⟩

/-- C7: over any well-formed records map (cell values, u32 keys), entries
with an unrecognized numeric key are silently dropped by `get_records`
without failing the lookup, and the subsequent resolution fails with the
no-resolvable-record error if and only if no entry carried a recognized
key — an unrecognized identifier next to a recognized record does not abort,
and a map whose sole entry is unrecognized aborts with that error.  (The
secondary contract call is assumed not to fabricate that same error.) -/
theorem get_records_unrecognized_dropped
    (entries : List (Nat × MapValue)) (lc : String → Except ResolveError (String × String))
    (domain : String)
    (hwf : ∀ e ∈ entries, (∃ c, e.2 = MapValue.cell c) ∧ e.1 < 2 ^ 32)
    (hlc : ∀ a e, lc a = .error e → e ≠ ResolveError.noResolvableRecord domain) :
    ∃ m : RecordMap, get_records entries = .ok m ∧
      (evernameResolveRecords lc m domain = .error (.noResolvableRecord domain) ↔
        ∀ e ∈ entries, ∀ t : AddressTag, AddressTag.tryFrom e.1 ≠ .ok t) := by
  obtain ⟨m, hm, hchar⟩ := get_records_fold_characterization entries RecordMap.empty hwf
  refine ⟨m, hm, ?_, ?_⟩
  · intro hfail e he t hcontra
    have htmem : t ∈ AddressTag.resolvable := tryFrom_mem_resolvable e.1 t hcontra
    have hmt : (m t).isSome = true := by
      rw [Option.isSome_iff_ne_none]
      intro hnone
      exact ((hchar t).mp hnone).2 e he hcontra
    exact resolveLoop_ne_noResolvable lc m domain hlc AddressTag.resolvable
      ⟨t, htmem, hmt⟩ hfail
  · intro hall
    unfold evernameResolveRecords
    apply resolveLoop_all_none
    intro t _
    exact (hchar t).mpr ⟨rfl, fun e he => hall e he t⟩

theorem get_records_unrecognized_dropped_witness :
    ∃ m : RecordMap,
      get_records [(7777, .cell .rawCell), (1003, .cell (.strCell "198.51.100.1"))] = .ok m ∧
      evernameResolveRecords (fun _ => Except.error (.external "no call")) m "d.ever" ≠
        .error (.noResolvableRecord "d.ever") := by
  obtain ⟨m, hm, hiff⟩ := get_records_unrecognized_dropped
    [(7777, .cell .rawCell), (1003, .cell (.strCell "198.51.100.1"))]
    (fun _ => Except.error (.external "no call")) "d.ever"
    (by
      intro e he
      rcases List.mem_cons.mp he with rfl | he'
      · exact ⟨⟨Cell.rawCell, rfl⟩, by norm_num⟩
      · rcases List.mem_cons.mp he' with rfl | he''
        · exact ⟨⟨Cell.strCell "198.51.100.1", rfl⟩, by norm_num⟩
        · cases he'')
    (by
      intro a e h hbad
      subst hbad
      simp at h)
  refine ⟨m, hm, ?_⟩
  intro hbad
  exact hiff.mp hbad (1003, .cell (.strCell "198.51.100.1")) (by simp) AddressTag.Web2
    (by decide)

end Web3Resolver
